import Mathlib

/-!
Formal model of the claude_code_server core (session_manager.py, task_executor.py,
server.py), shallowly embedded: pure data is translated directly, stateful Python
methods become explicit state-passing functions, wall-clock readings and the
outcomes of external calls (agent connect, disconnect, interrupt, the message
stream) are explicit inputs.  Python integer milliseconds stand in for the float
second arithmetic of datetime; event timestamps, which no claim inspects, are
omitted from the event payloads.
-/

namespace CCServer

/-- Task status enumeration from models.py. -/
inductive TaskStatus
  | pending
  | running
  | completed
  | failed
  | interrupted
deriving DecidableEq, Repr

/-- TaskProgress from models.py.  Counts are naturals (the SDK reports
non-negative counts); elapsed_time_ms is an integer since it is computed as a
difference of clock readings. -/
structure TaskProgress where
  turns : Nat
  tokens_used : Nat
  tokens_input : Nat
  tokens_output : Nat
  files_modified : Nat
  elapsed_time_ms : Int
deriving DecidableEq, Repr

/-- The fresh TaskProgress() built by TaskExecutor.__init__, with the field
defaults of models.py. -/
def TaskProgress.initial : TaskProgress :=
  { turns := 0, tokens_used := 0, tokens_input := 0, tokens_output := 0
  , files_modified := 0, elapsed_time_ms := 0 }

/-- TaskResult from models.py (total_cost_usd, never set by the executor, is
omitted). -/
structure TaskResult where
  exit_code : Nat
  summary : String
  errors : List String
deriving DecidableEq, Repr

/-- Data payload of a MESSAGE event, one constructor per message_type dict
emitted in task_executor.py. -/
inductive MessageData
  | assistantText (content model : String)
  | thinking (content signature : String)
  | user (content : String)
  | system (subtype data : String)
deriving DecidableEq, Repr

/-- One element of a ToolResultBlock content list: a dict that either is a text
item ({type: text, text: ...}) or anything else. -/
inductive ToolResultItem
  | textItem (text : String)
  | otherItem
deriving DecidableEq, Repr

/-- The content field of a ToolResultBlock: a string, a list of dicts, or None. -/
inductive ToolResultContent
  | str (s : String)
  | items (l : List ToolResultItem)
  | absent
deriving DecidableEq, Repr

/-- The events published by the executor (models.py event classes, keyed by
EventType); tool input dicts are modelled as strings, which no claim inspects. -/
inductive Event
  | message (data : MessageData)
  | tool_use (tool_id tool_name tool_input : String)
  | tool_result (tool_use_id : String) (content : ToolResultContent) (is_error : Option Bool)
  | progress (data : TaskProgress)
  | complete (data : TaskResult)
  | error (msg : String)
deriving DecidableEq, Repr

/-- True for COMPLETE events. -/
def Event.isComplete : Event → Bool
  | .complete _ => true
  | _ => false

/-- True for PROGRESS events. -/
def Event.isProgress : Event → Bool
  | .progress _ => true
  | _ => false

/-- Association-list lookup for string-keyed Python dicts (insertion order kept,
as CPython dicts do). -/
def lookupS {α : Type} : List (String × α) → String → Option α
  | [], _ => Option.none
  | p :: rest, k => if p.1 = k then some p.2 else lookupS rest k

/-- Assignment to an existing key of a Python dict: the value is replaced in
place, order unchanged. -/
def updateS {α : Type} (m : List (String × α)) (k : String) (v : α) : List (String × α) :=
  m.map (fun p => if p.1 = k then (k, v) else p)

/-! ## Event queues (asyncio.Queue as used by Session in session_manager.py) -/

/-- An asyncio.Queue of events.  qid models Python object identity; maxsize 0
means unbounded, exactly as in asyncio (Queue() defaults to maxsize 0). -/
structure EventQueue where
  qid : Nat
  maxsize : Nat
  items : List Event
deriving DecidableEq, Repr

/-- Result of one put: the item was enqueued, or the caller would suspend
because the queue is full. -/
inductive PutOutcome
  | enqueued (q : EventQueue)
  | blocked
deriving DecidableEq, Repr

/-- Mirrors asyncio.Queue.put: the queue is full iff 0 < maxsize and
maxsize ≤ qsize; a put on a full queue suspends (blocked), otherwise the item
is appended. -/
def EventQueue.put (q : EventQueue) (e : Event) : PutOutcome :=
  if 0 < q.maxsize ∧ q.maxsize ≤ q.items.length then .blocked
  else .enqueued { q with items := q.items ++ [e] }

/-- The event_queues dict of one Session, plus a counter supplying fresh queue
identities. -/
structure SessionQueues where
  next_qid : Nat
  event_queues : List (String × EventQueue)
deriving DecidableEq, Repr

/-- Mirrors Session.subscribe_task: if no queue exists for the task id, store a
fresh asyncio.Queue() (maxsize 0); return the stored queue.  There is no failure
branch in the source. -/
def subscribe_task (s : SessionQueues) (task_id : String) : EventQueue × SessionQueues :=
  match lookupS s.event_queues task_id with
  | some q => (q, s)
  | Option.none =>
      let q : EventQueue := { qid := s.next_qid, maxsize := 0, items := [] }
      (q, { next_qid := s.next_qid + 1, event_queues := s.event_queues ++ [(task_id, q)] })

/-- Mirrors Session.unsubscribe_task: drop the queue if present. -/
def unsubscribe_task (s : SessionQueues) (task_id : String) : SessionQueues :=
  { s with event_queues := s.event_queues.filter (fun p => p.1 ≠ task_id) }

/-- Result of Session.publish_event: the event was enqueued, silently dropped
because no queue exists, or the put would suspend on a full queue. -/
inductive PublishOutcome
  | published (s : SessionQueues)
  | droppedNoQueue
  | wouldBlock
deriving DecidableEq, Repr

/-- Mirrors Session.publish_event: if task_id has a queue, put the event into
it (in place), else do nothing. -/
def publish_event (s : SessionQueues) (task_id : String) (e : Event) : PublishOutcome :=
  match lookupS s.event_queues task_id with
  | Option.none => .droppedNoQueue
  | some q =>
      match q.put e with
      | .blocked => .wouldBlock
      | .enqueued q2 => .published { s with event_queues := updateS s.event_queues task_id q2 }

/-- Iterated publish_event of the same event, stopping with none on anything
other than a successful enqueue. -/
def publishMany (s : SessionQueues) (task_id : String) (e : Event) : Nat → Option SessionQueues
  | 0 => some s
  | n + 1 =>
      match publish_event s task_id e with
      | .published s2 => publishMany s2 task_id e n
      | _ => Option.none

/-- Length of the queue a task id currently has, if any. -/
def queueLen (s : SessionQueues) (task_id : String) : Option Nat :=
  (lookupS s.event_queues task_id).map (fun q => q.items.length)

/-- Default of TaskConfig.max_queue_size in config.py; the field is never read
anywhere else in the source. -/
def task_max_queue_size : Nat := 100

/-! ## Session manager (session_manager.py) -/

/-- The slice of a Session that the idle reaper inspects, plus the
environment fact of whether client.disconnect() would raise for this
session.  Times are integer seconds. -/
structure SessionRec where
  tasks : List String
  last_activity : Int
  disconnect_fails : Bool
deriving DecidableEq, Repr

/-- Mirrors Session.is_idle: idle iff no tasks and now − last_activity is
strictly greater than the idle timeout. -/
def SessionRec.is_idle (s : SessionRec) (now idle_timeout : Int) : Bool :=
  s.tasks.isEmpty && decide (now - s.last_activity > idle_timeout)

/-- One iteration of the loop body of SessionManager._cleanup_idle_sessions:
look the id up, disconnect, then delete — all inside one try whose except only
logs.  A raising disconnect therefore skips the delete and leaves the table
unchanged; a missing id (impossible under the lock) likewise only logs. -/
def cleanupStep (tbl : List (String × SessionRec)) (session_id : String) :
    List (String × SessionRec) :=
  match lookupS tbl session_id with
  | Option.none => tbl
  | some s => if s.disconnect_fails then tbl else tbl.filter (fun q => q.1 ≠ session_id)

/-- Mirrors SessionManager._cleanup_idle_sessions: select the idle ids from a
snapshot of the table, then run the per-session loop body on each. -/
def cleanup_idle_sessions (now idle_timeout : Int) (tbl : List (String × SessionRec)) :
    List (String × SessionRec) :=
  let idle := (tbl.filter (fun q => q.2.is_idle now idle_timeout)).map Prod.fst
  idle.foldl cleanupStep tbl

/-- Environment of one create_session call: the configured session cap, whether
the resolved workspace path exists, and whether client.connect() succeeds. -/
structure CreateEnv where
  max_concurrent : Nat
  workspace_exists : Bool
  connect_ok : Bool
deriving DecidableEq, Repr

/-- The failure modes of SessionManager.create_session: ValueError for a live
id, RuntimeError for the cap, ValueError for a missing workspace, and the
re-raised exception of a failed client.connect(). -/
inductive CreateError
  | already_exists
  | at_capacity
  | invalid_workspace
  | connect_failed
deriving DecidableEq, Repr

/-- The session table of the manager, projected to the session ids in
insertion order (nothing else about a stored Session is consulted by the
claims on create_session). -/
structure ManagerState where
  sessions : List String
deriving DecidableEq, Repr

/-- Mirrors SessionManager.create_session, checks in source order: live id,
cap, workspace existence, then client.connect(); only after a successful
connect is the session inserted into the table. -/
def create_session (env : CreateEnv) (st : ManagerState) (session_id : String) :
    Except CreateError Unit × ManagerState :=
  if session_id ∈ st.sessions then (.error .already_exists, st)
  else if env.max_concurrent ≤ st.sessions.length then (.error .at_capacity, st)
  else if ¬ env.workspace_exists then (.error .invalid_workspace, st)
  else if ¬ env.connect_ok then (.error .connect_failed, st)
  else (.ok (), { sessions := st.sessions ++ [session_id] })

/-! ## Interrupt endpoint (server.py, interrupt_task) -/

/-- One entry of the running_tasks registry, restricted to the fields the
interrupt endpoint touches. -/
structure TaskRegEntry where
  session_id : String
  status : TaskStatus
deriving DecidableEq, Repr

/-- The HTTP outcome of the interrupt endpoint: 404 for an unknown task, 404
for a missing session, 500 when client.interrupt() raises, 200 with status
INTERRUPTED otherwise. -/
inductive InterruptOutcome
  | taskNotFound
  | sessionNotFound
  | interruptFailed
  | interrupted
deriving DecidableEq, Repr

/-- Mirrors the interrupt_task endpoint of server.py.  interrupt_raises is the
environment fact of whether session.client.interrupt() raises; the status
assignment follows the successful interrupt inside the same try. -/
def interrupt_task (interrupt_raises : Bool) (sessions : List String)
    (running_tasks : List (String × TaskRegEntry)) (task_id : String) :
    InterruptOutcome × List (String × TaskRegEntry) :=
  match lookupS running_tasks task_id with
  | Option.none => (.taskNotFound, running_tasks)
  | some info =>
      if info.session_id ∈ sessions then
        if interrupt_raises then (.interruptFailed, running_tasks)
        else (.interrupted,
          updateS running_tasks task_id { info with status := TaskStatus.interrupted })
      else (.sessionNotFound, running_tasks)

/-! ## Task executor (task_executor.py) -/

/-- The usage dict of a Result message after the .get defaults of
_handle_result are applied. -/
structure UsageTotals where
  total_tokens : Nat
  input_tokens : Nat
  output_tokens : Nat
deriving DecidableEq, Repr

/-- Content blocks of an AssistantMessage as dispatched by
_handle_assistant_message; blocks of any other class fall to otherBlock, which
the loop ignores. -/
inductive ContentBlock
  | textBlock (text : String)
  | thinkingBlock (thinking signature : String)
  | toolUseBlock (id name input : String)
  | toolResultBlock (tool_use_id : String) (content : ToolResultContent) (is_error : Option Bool)
  | otherBlock
deriving DecidableEq, Repr

/-- The message variants the executor receives from
client.receive_response(); a usage of None or an empty dict (both falsy in
Python) is Option.none.  Unknown classes fall to otherMessage, which
_handle_message only logs. -/
inductive Message
  | assistant (content : List ContentBlock) (model : String)
  | user (content : String)
  | system (subtype data : String)
  | result (usage : Option UsageTotals) (num_turns : Nat) (duration_ms : Int) (is_error : Bool)
  | otherMessage
deriving DecidableEq, Repr

/-- True for Result messages (the isinstance check that breaks the stream
loop). -/
def Message.isResult : Message → Bool
  | .result _ _ _ _ => true
  | _ => false

/-- A message paired with the wall-clock reading (ms) at the moment the
executor processes it; datetime.utcnow() is an input of the model. -/
structure TimedMessage where
  at_ms : Int
  msg : Message
deriving DecidableEq, Repr

/-- Whether the first character list starts the second. -/
def charsStartWith : List Char → List Char → Bool
  | [], _ => true
  | _ :: _, [] => false
  | a :: as, b :: bs => a == b && charsStartWith as bs

/-- Whether the first character list occurs inside the second. -/
def charsContain (needle : List Char) : List Char → Bool
  | [] => charsStartWith needle []
  | c :: rest => charsStartWith needle (c :: rest) || charsContain needle rest

/-- Decides whether needle occurs inside hay, mirroring the Python in operator
on str. -/
def containsSubstr (hay needle : String) : Bool :=
  charsContain needle.toList hay.toList

/-- The per-item test of _emit_tool_result: a text dict whose lower-cased text
contains "written successfully" or "modified". -/
def isFileModItem : ToolResultItem → Bool
  | .textItem t =>
      containsSubstr (String.mk (t.toList.map Char.toLower)) "written successfully"
        || containsSubstr (String.mk (t.toList.map Char.toLower)) "modified"
  | .otherItem => false

/-- How many file modifications _emit_tool_result counts in one tool result
content: one per matching text item of a list content, none otherwise. -/
def countFileMods : ToolResultContent → Nat
  | .items l => (l.filter isFileModItem).length
  | _ => 0

/-- Mirrors _emit_progress: elapsed_time_ms is recomputed from the wall clock
(now − start_time, start_time being always set by execute) before the snapshot
is published as a PROGRESS event. -/
def emitProgress (start_ms now_ms : Int) (p : TaskProgress) : TaskProgress × Event :=
  let p2 := { p with elapsed_time_ms := now_ms - start_ms }
  (p2, .progress p2)

/-- One content block of the loop in _handle_assistant_message: the emitted
events and the files_modified update of _emit_tool_result. -/
def handleBlock (p : TaskProgress) (model : String) : ContentBlock → TaskProgress × List Event
  | .textBlock t => (p, [.message (.assistantText t model)])
  | .thinkingBlock th sig => (p, [.message (.thinking th sig)])
  | .toolUseBlock i n inp => (p, [.tool_use i n inp])
  | .toolResultBlock tid c ie =>
      ({ p with files_modified := p.files_modified + countFileMods c }, [.tool_result tid c ie])
  | .otherBlock => (p, [])

/-- The block loop of _handle_assistant_message. -/
def handleBlocks (model : String) : TaskProgress → List ContentBlock → TaskProgress × List Event
  | p, [] => (p, [])
  | p, b :: rest =>
      let r1 := handleBlock p model b
      let r2 := handleBlocks model r1.1 rest
      (r2.1, r1.2 ++ r2.2)

/-- Mirrors _handle_assistant_message: increment turns, process the blocks,
then emit one PROGRESS. -/
def handleAssistantMessage (start_ms now_ms : Int) (p : TaskProgress)
    (content : List ContentBlock) (model : String) : TaskProgress × List Event :=
  let r := handleBlocks model { p with turns := p.turns + 1 } content
  let pr := emitProgress start_ms now_ms r.1
  (pr.1, r.2 ++ [pr.2])

/-- Mirrors _handle_result: overwrite the token counters from usage when usage
is truthy, overwrite turns with num_turns and elapsed_time_ms with
duration_ms, then emit one final PROGRESS through _emit_progress (which
overwrites elapsed_time_ms again from the wall clock). -/
def handleResult (start_ms now_ms : Int) (p : TaskProgress) (usage : Option UsageTotals)
    (num_turns : Nat) (duration_ms : Int) : TaskProgress × List Event :=
  let p1 := match usage with
    | some u =>
        { p with
          tokens_used := u.total_tokens
          tokens_input := u.input_tokens
          tokens_output := u.output_tokens }
    | Option.none => p
  let p2 := { p1 with turns := num_turns, elapsed_time_ms := duration_ms }
  let pr := emitProgress start_ms now_ms p2
  (pr.1, [pr.2])

/-- The message loop of _execute_task: _handle_message dispatch per message;
on a Result message, _handle_result runs and the loop breaks, discarding the
rest of the stream. -/
def runStream (start_ms : Int) : TaskProgress → List TimedMessage → TaskProgress × List Event
  | p, [] => (p, [])
  | p, ⟨now_ms, .assistant content model⟩ :: rest =>
      let r1 := handleAssistantMessage start_ms now_ms p content model
      let r2 := runStream start_ms r1.1 rest
      (r2.1, r1.2 ++ r2.2)
  | p, ⟨_, .user c⟩ :: rest =>
      let r2 := runStream start_ms p rest
      (r2.1, .message (.user c) :: r2.2)
  | p, ⟨_, .system st d⟩ :: rest =>
      let r2 := runStream start_ms p rest
      (r2.1, .message (.system st d) :: r2.2)
  | p, ⟨now_ms, .result usage nt dms _⟩ :: _ =>
      handleResult start_ms now_ms p usage nt dms
  | p, ⟨_, .otherMessage⟩ :: rest => runStream start_ms p rest

/-- The TaskResult of _complete_task(success=True). -/
def successResult : TaskResult :=
  { exit_code := 0, summary := "Task completed successfully", errors := [] }

/-- The TaskResult of _complete_task(success=False, error=err). -/
def failureResult (err : String) : TaskResult :=
  { exit_code := 1, summary := "Task failed: " ++ err, errors := [err] }

/-- The exit path taken by one execute call.  success: the stream was drained
or broke at a Result message.  streamError: query or the stream raised, after
j events of the loop had been published.  timedOut: asyncio.wait_for cancelled
the inner coroutine after j events had been published.  In either failure the
except branch of execute publishes ERROR and then COMPLETE; on the unbounded
queues of this server a publish never suspends, so the ERROR and COMPLETE tail
cannot itself be cut by the cancellation. -/
inductive Outcome
  | success
  | streamError (j : Nat) (msg : String)
  | timedOut (j : Nat)
deriving DecidableEq, Repr

/-- Every event publish of one execute call for a task, in order, as a
function of the stream the agent yields and the exit path taken. -/
def executeEvents (start_ms : Int) (msgs : List TimedMessage) : Outcome → List Event
  | .success =>
      (runStream start_ms TaskProgress.initial msgs).2 ++ [.complete successResult]
  | .streamError j m =>
      (runStream start_ms TaskProgress.initial msgs).2.take j
        ++ [.error m, .complete (failureResult m)]
  | .timedOut j =>
      (runStream start_ms TaskProgress.initial msgs).2.take j
        ++ [.error "Task execution timed out", .complete (failureResult "Timeout")]

/-- The turns fields of the PROGRESS events of an event list, in order. -/
def progressTurns (evs : List Event) : List Nat :=
  evs.filterMap (fun e => match e with | .progress p => some p.turns | _ => Option.none)

/-- The elapsed_time_ms fields of the PROGRESS events of an event list, in
order. -/
def progressElapsed (evs : List Event) : List Int :=
  evs.filterMap (fun e => match e with | .progress p => some p.elapsed_time_ms | _ => Option.none)

/-- A stream of two assistant messages followed by a Result whose num_turns is
lower than the number of assistant messages counted. -/
def c5msgs : List TimedMessage :=
  [ { at_ms := 100, msg := .assistant [.textBlock "a"] "m" },
    { at_ms := 200, msg := .assistant [.textBlock "b"] "m" },
    { at_ms := 300, msg := .result
        (some { total_tokens := 10, input_tokens := 6, output_tokens := 4 }) 1 50 false } ]

/-- A session the reaper selected but failed to disconnect. -/
def reaperDemoSession : SessionRec :=
  { tasks := [], last_activity := 0, disconnect_fails := true }

/-- The session queue state after one subscribe_task for task t1. -/
def demoQueues : SessionQueues := (subscribe_task { next_qid := 0, event_queues := [] } "t1").2

/-- The queue and state returned by the first subscription for task t1. -/
def firstSubscribe : EventQueue × SessionQueues :=
  subscribe_task { next_qid := 0, event_queues := [] } "t1"

/-- A registry entry of a running task owned by session s. -/
def demoTaskEntry : TaskRegEntry := { session_id := "s", status := TaskStatus.running }

/-! ## Theorems -/

/-- Block processing emits neither COMPLETE nor PROGRESS events. -/
theorem handleBlocks_events (model : String) :
    ∀ (bs : List ContentBlock) (p : TaskProgress) (e : Event),
      e ∈ (handleBlocks model p bs).2 → e.isComplete = false ∧ e.isProgress = false := by
  intro bs
  induction bs with
  | nil =>
      intro p e he
      simp [handleBlocks] at he
  | cons b rest ih =>
      intro p e he
      simp only [handleBlocks, List.mem_append] at he
      cases he with
      | inl h =>
          cases b <;> simp [handleBlock] at h <;> subst h <;> exact ⟨rfl, rfl⟩
      | inr h => exact ih _ _ h

/-- Block processing only updates files_modified: turns is unchanged. -/
theorem handleBlocks_turns (model : String) :
    ∀ (bs : List ContentBlock) (p : TaskProgress),
      (handleBlocks model p bs).1.turns = p.turns := by
  intro bs
  induction bs with
  | nil => intro p; rfl
  | cons b rest ih =>
      intro p
      simp only [handleBlocks]
      rw [ih]
      cases b <;> rfl

/-- The message loop never emits a COMPLETE event; COMPLETE comes only from
_complete_task after the loop. -/
theorem runStream_no_complete (start : Int) :
    ∀ (msgs : List TimedMessage) (p : TaskProgress) (e : Event),
      e ∈ (runStream start p msgs).2 → e.isComplete = false := by
  intro msgs
  induction msgs with
  | nil =>
      intro p e he
      simp [runStream] at he
  | cons tm rest ih =>
      intro p e he
      obtain ⟨t, m⟩ := tm
      cases m with
      | assistant content model =>
          simp only [runStream, handleAssistantMessage, emitProgress, List.append_assoc,
            List.mem_append, List.mem_singleton] at he
          rcases he with h | h | h
          · exact ((handleBlocks_events model content _ e) h).1
          · rw [h]; rfl
          · exact ih _ _ h
      | user c =>
          simp only [runStream, List.mem_cons] at he
          rcases he with h | h
          · rw [h]; rfl
          · exact ih _ _ h
      | system st d =>
          simp only [runStream, List.mem_cons] at he
          rcases he with h | h
          · rw [h]; rfl
          · exact ih _ _ h
      | result usage nt dms ie =>
          simp only [runStream, handleResult, emitProgress, List.mem_singleton] at he
          rw [he]
          rfl
      | otherMessage =>
          simp only [runStream] at he
          exact ih _ _ he

/-- The events of one assistant message are the block events followed by one
PROGRESS snapshot of the updated state. -/
theorem handleAssistantMessage_snd (start t : Int) (p : TaskProgress)
    (c : List ContentBlock) (mdl : String) :
    (handleAssistantMessage start t p c mdl).2 =
      (handleBlocks mdl { p with turns := p.turns + 1 } c).2
        ++ [.progress (handleAssistantMessage start t p c mdl).1] := rfl

/-- One assistant message increments turns by exactly one. -/
theorem handleAssistantMessage_fst_turns (start t : Int) (p : TaskProgress)
    (c : List ContentBlock) (mdl : String) :
    (handleAssistantMessage start t p c mdl).1.turns = p.turns + 1 := by
  simp only [handleAssistantMessage, emitProgress]
  exact handleBlocks_turns mdl c _

/-- The PROGRESS of an assistant message carries the wall-clock elapsed time. -/
theorem handleAssistantMessage_fst_elapsed (start t : Int) (p : TaskProgress)
    (c : List ContentBlock) (mdl : String) :
    (handleAssistantMessage start t p c mdl).1.elapsed_time_ms = t - start := rfl

/-- The progress projections distribute over appended event lists. -/
theorem progressTurns_append (a b : List Event) :
    progressTurns (a ++ b) = progressTurns a ++ progressTurns b := by
  unfold progressTurns
  simp

/-- The elapsed projection distributes over appended event lists. -/
theorem progressElapsed_append (a b : List Event) :
    progressElapsed (a ++ b) = progressElapsed a ++ progressElapsed b := by
  unfold progressElapsed
  simp

/-- Events that are not PROGRESS contribute nothing to the progress
projections. -/
theorem progress_projections_nil {evs : List Event}
    (h : ∀ e ∈ evs, e.isProgress = false) :
    progressTurns evs = [] ∧ progressElapsed evs = [] := by
  constructor
  · unfold progressTurns
    rw [List.filterMap_eq_nil_iff]
    intro e he
    have he2 := h e he
    cases e <;> simp_all [Event.isProgress]
  · unfold progressElapsed
    rw [List.filterMap_eq_nil_iff]
    intro e he
    have he2 := h e he
    cases e <;> simp_all [Event.isProgress]

/-- Dropping the middle element of a non-decreasing chain keeps it a chain. -/
theorem chain_le_drop_middle {α : Type} [Preorder α] {t0 t : α} {l : List α}
    (h : List.Chain' (· ≤ ·) (t0 :: t :: l)) : List.Chain' (· ≤ ·) (t0 :: l) := by
  have h1 : t0 ≤ t := (List.chain'_cons.mp h).1
  have h2 := (List.chain'_cons.mp h).2
  refine (h2.tail).cons' ?_
  intro y hy
  exact le_trans h1 ((List.chain'_cons'.mp h2).1 y hy)

/-- Along a Result-free stream the turns of successive PROGRESS events never
decrease: each assistant message bumps the counter by one. -/
theorem runStream_turns_chain (start : Int) :
    ∀ (msgs : List TimedMessage) (p : TaskProgress),
      (∀ tm ∈ msgs, tm.msg.isResult = false) →
      List.Chain' (· ≤ ·) (p.turns :: progressTurns (runStream start p msgs).2) := by
  intro msgs
  induction msgs with
  | nil =>
      intro p _
      simp [runStream, progressTurns]
  | cons tm rest ih =>
      intro p h
      obtain ⟨t, m⟩ := tm
      have hrest : ∀ tm ∈ rest, tm.msg.isResult = false :=
        fun tm htm => h tm (List.mem_cons_of_mem _ htm)
      cases m with
      | assistant content model =>
          have hnil := (progress_projections_nil
            (fun e he =>
              (handleBlocks_events model content { p with turns := p.turns + 1 } e he).2)).1
          have hshape :
              progressTurns (runStream start p (⟨t, .assistant content model⟩ :: rest)).2
                = (p.turns + 1) ::
                  progressTurns
                    (runStream start (handleAssistantMessage start t p content model).1 rest).2 := by
            simp only [runStream]
            rw [progressTurns_append, handleAssistantMessage_snd, progressTurns_append, hnil]
            simp [progressTurns, handleAssistantMessage_fst_turns]
          rw [hshape]
          refine List.chain'_cons.mpr ⟨Nat.le_succ _, ?_⟩
          have hx := ih (handleAssistantMessage start t p content model).1 hrest
          rwa [handleAssistantMessage_fst_turns] at hx
      | user c =>
          have hshape :
              progressTurns (runStream start p (⟨t, .user c⟩ :: rest)).2
                = progressTurns (runStream start p rest).2 := by
            simp only [runStream]
            unfold progressTurns
            rfl
          rw [hshape]
          exact ih p hrest
      | system st d =>
          have hshape :
              progressTurns (runStream start p (⟨t, .system st d⟩ :: rest)).2
                = progressTurns (runStream start p rest).2 := by
            simp only [runStream]
            unfold progressTurns
            rfl
          rw [hshape]
          exact ih p hrest
      | result usage nt dms ie =>
          exact absurd (h _ (List.mem_cons_self _ _)) (by simp [Message.isResult])
      | otherMessage =>
          have hshape :
              progressTurns (runStream start p (⟨t, .otherMessage⟩ :: rest)).2
                = progressTurns (runStream start p rest).2 := by
            simp only [runStream]
          rw [hshape]
          exact ih p hrest

/-- When the clock readings of the stream never decrease, the elapsed times of
successive PROGRESS events never decrease either (every PROGRESS, including
the final one of a Result message, carries now − start). -/
theorem runStream_elapsed_chain (start : Int) :
    ∀ (msgs : List TimedMessage) (p : TaskProgress) (t0 : Int),
      List.Chain' (· ≤ ·) (t0 :: msgs.map TimedMessage.at_ms) →
      List.Chain' (· ≤ ·) ((t0 - start) :: progressElapsed (runStream start p msgs).2) := by
  intro msgs
  induction msgs with
  | nil =>
      intro p t0 _
      simp [runStream, progressElapsed]
  | cons tm rest ih =>
      intro p t0 hc
      obtain ⟨t, m⟩ := tm
      have hc' : List.Chain' (· ≤ ·) (t0 :: t :: rest.map TimedMessage.at_ms) := by
        simpa using hc
      have h0t : t0 ≤ t := (List.chain'_cons.mp hc').1
      have hct : List.Chain' (· ≤ ·) (t :: rest.map TimedMessage.at_ms) :=
        (List.chain'_cons.mp hc').2
      cases m with
      | assistant content model =>
          have hnil := (progress_projections_nil
            (fun e he =>
              (handleBlocks_events model content { p with turns := p.turns + 1 } e he).2)).2
          have hshape :
              progressElapsed (runStream start p (⟨t, .assistant content model⟩ :: rest)).2
                = (t - start) ::
                  progressElapsed
                    (runStream start (handleAssistantMessage start t p content model).1 rest).2 := by
            simp only [runStream]
            rw [progressElapsed_append, handleAssistantMessage_snd, progressElapsed_append, hnil]
            simp [progressElapsed, handleAssistantMessage_fst_elapsed]
          rw [hshape]
          refine List.chain'_cons.mpr ⟨by omega, ih _ t hct⟩
      | user c =>
          have hshape :
              progressElapsed (runStream start p (⟨t, .user c⟩ :: rest)).2
                = progressElapsed (runStream start p rest).2 := by
            simp only [runStream]
            unfold progressElapsed
            rfl
          rw [hshape]
          exact ih p t0 (chain_le_drop_middle hc')
      | system st d =>
          have hshape :
              progressElapsed (runStream start p (⟨t, .system st d⟩ :: rest)).2
                = progressElapsed (runStream start p rest).2 := by
            simp only [runStream]
            unfold progressElapsed
            rfl
          rw [hshape]
          exact ih p t0 (chain_le_drop_middle hc')
      | result usage nt dms ie =>
          have hshape :
              progressElapsed (runStream start p (⟨t, .result usage nt dms ie⟩ :: rest)).2
                = [t - start] := by
            simp only [runStream]
            rfl
          rw [hshape]
          exact List.chain'_cons.mpr ⟨by omega, List.chain'_singleton _⟩
      | otherMessage =>
          have hshape :
              progressElapsed (runStream start p (⟨t, .otherMessage⟩ :: rest)).2
                = progressElapsed (runStream start p rest).2 := by
            simp only [runStream]
          rw [hshape]
          exact ih p t0 (chain_le_drop_middle hc')

/-- A successful lookup returns a stored entry. -/
theorem lookupS_mem {α : Type} :
    ∀ (m : List (String × α)) (k : String) (v : α), lookupS m k = some v → (k, v) ∈ m := by
  intro m k v
  induction m with
  | nil => simp [lookupS]
  | cons p rest ih =>
      intro hv
      unfold lookupS at hv
      by_cases hk : p.1 = k
      · rw [if_pos hk] at hv
        have hp : p = (k, v) := by
          obtain ⟨p1, p2⟩ := p
          simp only [Option.some.injEq] at hv
          simp_all
        rw [← hp]
        exact List.mem_cons_self _ _
      · rw [if_neg hk] at hv
        exact List.mem_cons_of_mem _ (ih hv)

set_option maxRecDepth 8192 in
/-- C2.  The claim says an idle session is removed from the table even when
disconnecting its client raises.  In _cleanup_idle_sessions the del statement
follows client.disconnect() inside the same try, so a raising disconnect jumps
to the except (which only logs) and the removal is skipped: at the concrete
failing input the idle session s1 survives the reaper pass, while the same
pass with a non-raising disconnect does remove it — the behaviour its sibling
delete_session implements on every path. -/
theorem cleanup_keeps_session_when_disconnect_raises :
    reaperDemoSession.is_idle 2000 1000 = true ∧
    cleanup_idle_sessions 2000 1000 [("s1", reaperDemoSession)] = [("s1", reaperDemoSession)] ∧
    cleanup_idle_sessions 2000 1000
        [("s1", { reaperDemoSession with disconnect_fails := false })] = [] := by
  decide

set_option maxRecDepth 100000 in
/-- C3 counterexample.  The claim bounds every per-task queue by the
configured maximum (task.max_queue_size, default 100) with a blocking publish
when full; but subscribe_task builds asyncio.Queue() with its default
maxsize 0, so 101 consecutive publishes all enqueue without ever blocking and
leave 101 undrained events in the queue. -/
theorem queue_unbounded_counterexample :
    (publishMany demoQueues "t1" (.error "overflow") (task_max_queue_size + 1)).map
        (fun s => queueLen s "t1") = some (some (task_max_queue_size + 1)) ∧
    task_max_queue_size < task_max_queue_size + 1 := by
  decide

/-- C3 amended.  Queues created by subscribe_task are unbounded (maxsize 0)
and stay so, and a publish onto any subscribed unbounded queue enqueues
immediately — it never blocks and the queue grows without bound; the
configured task.max_queue_size is never consulted. -/
theorem publish_never_blocks_amended :
    ∀ (s : SessionQueues) (tid : String) (e : Event),
      ((∀ p ∈ s.event_queues, p.2.maxsize = 0) →
        (subscribe_task s tid).1.maxsize = 0 ∧
        (∀ p ∈ (subscribe_task s tid).2.event_queues, p.2.maxsize = 0)) ∧
      (∀ q : EventQueue, lookupS s.event_queues tid = some q → q.maxsize = 0 →
        publish_event s tid e = .published
          { s with
              event_queues := updateS s.event_queues tid
                { q with items := q.items ++ [e] } }) := by
  intro s tid e
  constructor
  · intro hall
    unfold subscribe_task
    cases hq : lookupS s.event_queues tid with
    | none =>
        refine ⟨rfl, ?_⟩
        intro p hp
        simp only [List.mem_append, List.mem_singleton] at hp
        cases hp with
        | inl h => exact hall p h
        | inr h => rw [h]
    | some q =>
        exact ⟨hall _ (lookupS_mem _ _ _ hq), hall⟩
  · intro q hq hsize
    unfold publish_event
    rw [hq]
    simp [EventQueue.put, hsize]

/-- C3 amended, witness: at the concrete one-queue state, the subscribed queue
has maxsize 0 and a publish enqueues the event immediately. -/
theorem publish_never_blocks_witness :
    (subscribe_task { next_qid := 0, event_queues := [] } "t1").1.maxsize = 0 ∧
    publish_event demoQueues "t1" (.error "x") = .published
      { demoQueues with
          event_queues := updateS demoQueues.event_queues "t1"
            { qid := 0, maxsize := 0, items := [.error "x"] } } := by
  refine ⟨((publish_never_blocks_amended { next_qid := 0, event_queues := [] } "t1"
      (.error "x")).1 (by decide)).1, ?_⟩
  exact (publish_never_blocks_amended demoQueues "t1" (.error "x")).2
    { qid := 0, maxsize := 0, items := [] } (by decide) rfl

/-- C4 counterexample.  The claim says a second subscription attempt for an
already-subscribed task id fails with ALREADY_SUBSCRIBED; but subscribe_task
has no failure branch: at the concrete state left by a first subscription for
t1, a second subscribe_task for t1 succeeds and returns the very same queue
(same identity) with the state unchanged. -/
theorem duplicate_subscribe_counterexample :
    subscribe_task firstSubscribe.2 "t1" = (firstSubscribe.1, firstSubscribe.2) := by
  decide

/-- C4 amended.  A subscription attempt for a task id that already has a queue
succeeds and returns that same stored queue with the state unchanged
(subscribe_task is an idempotent get-or-create); no ALREADY_SUBSCRIBED error
exists in the code. -/
theorem subscribe_idempotent_amended :
    ∀ (s : SessionQueues) (tid : String) (q : EventQueue),
      lookupS s.event_queues tid = some q → subscribe_task s tid = (q, s) := by
  intro s tid q hq
  unfold subscribe_task
  rw [hq]

/-- C4 amended, witness: a concrete two-queue state returns the stored queue
of task b unchanged. -/
theorem subscribe_idempotent_witness :
    subscribe_task
        { next_qid := 2, event_queues :=
            [("a", { qid := 0, maxsize := 0, items := [] }),
             ("b", { qid := 1, maxsize := 0, items := [.error "x"] })] } "b"
      = ({ qid := 1, maxsize := 0, items := [.error "x"] },
         { next_qid := 2, event_queues :=
            [("a", { qid := 0, maxsize := 0, items := [] }),
             ("b", { qid := 1, maxsize := 0, items := [.error "x"] })] }) := by
  exact subscribe_idempotent_amended _ "b" _ (by decide)

/-- C6.  create_session fails with ALREADY_EXISTS on a live id, AT_CAPACITY
when the table is at max_concurrent, INVALID_WORKSPACE when the workspace path
does not exist, each leaving the table unchanged; a failed connect also leaves
the table unchanged, and the table changes only when the connect succeeded
(the connection is opened before the insert), in which case the session is
appended to the table. -/
theorem create_session_spec :
    ∀ (env : CreateEnv) (st : ManagerState) (sid : String),
      (sid ∈ st.sessions → create_session env st sid = (.error .already_exists, st)) ∧
      (sid ∉ st.sessions → env.max_concurrent ≤ st.sessions.length →
        create_session env st sid = (.error .at_capacity, st)) ∧
      (sid ∉ st.sessions → st.sessions.length < env.max_concurrent →
        env.workspace_exists = false →
        create_session env st sid = (.error .invalid_workspace, st)) ∧
      (sid ∉ st.sessions → st.sessions.length < env.max_concurrent →
        env.workspace_exists = true → env.connect_ok = false →
        create_session env st sid = (.error .connect_failed, st)) ∧
      (env.connect_ok = false → (create_session env st sid).2 = st) ∧
      ((create_session env st sid).2 ≠ st → env.connect_ok = true ∧
        (create_session env st sid).1 = .ok () ∧
        (create_session env st sid).2 = { sessions := st.sessions ++ [sid] }) := by
  intro env st sid
  refine ⟨?_, ?_, ?_, ?_, ?_, ?_⟩
  · intro h
    simp [create_session, h]
  · intro h hcap
    simp [create_session, h, hcap]
  · intro h hcap hw
    simp [create_session, h, Nat.not_le.mpr hcap, hw]
  · intro h hcap hw hc
    simp [create_session, h, Nat.not_le.mpr hcap, hw, hc]
  · intro hc
    unfold create_session
    split_ifs <;> simp_all
  · intro hchanged
    unfold create_session at hchanged ⊢
    split_ifs at hchanged ⊢ <;> simp_all

/-- C6, witness: each failure branch at a concrete table of one session a. -/
theorem create_session_witness :
    create_session { max_concurrent := 1, workspace_exists := true, connect_ok := true }
        { sessions := ["a"] } "a" = (.error .already_exists, { sessions := ["a"] }) ∧
    create_session { max_concurrent := 1, workspace_exists := true, connect_ok := true }
        { sessions := ["a"] } "b" = (.error .at_capacity, { sessions := ["a"] }) ∧
    create_session { max_concurrent := 2, workspace_exists := false, connect_ok := true }
        { sessions := ["a"] } "b" = (.error .invalid_workspace, { sessions := ["a"] }) ∧
    create_session { max_concurrent := 2, workspace_exists := true, connect_ok := false }
        { sessions := ["a"] } "b" = (.error .connect_failed, { sessions := ["a"] }) := by
  refine ⟨(create_session_spec _ _ "a").1 (by decide),
          (create_session_spec _ _ "b").2.1 (by decide) (by decide),
          (create_session_spec _ _ "b").2.2.1 (by decide) (by decide) rfl,
          (create_session_spec _ _ "b").2.2.2.1 (by decide) (by decide) rfl rfl⟩

/-- C10.  The interrupt endpoint returns 500 and leaves the registry unchanged
when client.interrupt() raises; the registry records INTERRUPTED only on a
successful interrupt, in which case the endpoint returns the interrupted
response and updates exactly the status of the task. -/
theorem interrupt_endpoint_spec :
    ∀ (ir : Bool) (sessions : List String) (tasks : List (String × TaskRegEntry)) (tid : String),
      (∀ info, lookupS tasks tid = some info → info.session_id ∈ sessions → ir = true →
        interrupt_task ir sessions tasks tid = (.interruptFailed, tasks)) ∧
      ((interrupt_task ir sessions tasks tid).1 = .interrupted → ir = false) ∧
      ((interrupt_task ir sessions tasks tid).1 ≠ .interrupted →
        (interrupt_task ir sessions tasks tid).2 = tasks) ∧
      (∀ info, lookupS tasks tid = some info → info.session_id ∈ sessions → ir = false →
        interrupt_task ir sessions tasks tid =
          (.interrupted, updateS tasks tid { info with status := TaskStatus.interrupted })) := by
  intro ir sessions tasks tid
  refine ⟨?_, ?_, ?_, ?_⟩
  · intro info hinfo hmem hir
    simp [interrupt_task, hinfo, hmem, hir]
  · unfold interrupt_task
    cases hinfo : lookupS tasks tid with
    | none => simp
    | some info =>
        by_cases hmem : info.session_id ∈ sessions
        · cases ir <;> simp [hmem]
        · simp [hmem]
  · unfold interrupt_task
    cases hinfo : lookupS tasks tid with
    | none => simp
    | some info =>
        by_cases hmem : info.session_id ∈ sessions
        · cases ir <;> simp [hmem]
        · simp [hmem]
  · intro info hinfo hmem hir
    simp [interrupt_task, hinfo, hmem, hir]

/-- C1.  Every execute call — success, stream exception, or timeout —
publishes exactly one COMPLETE event for its task, and that COMPLETE is the
last event published. -/
theorem execute_terminal_event_unique :
    ∀ (start : Int) (msgs : List TimedMessage) (oc : Outcome),
      (executeEvents start msgs oc).countP (fun e => e.isComplete) = 1 ∧
      (∃ r, (executeEvents start msgs oc).getLast? = some (.complete r)) := by
  intro start msgs oc
  have hinner : ∀ e ∈ (runStream start TaskProgress.initial msgs).2,
      ¬ ((fun e => e.isComplete) e = true) := by
    intro e he
    simp [runStream_no_complete start msgs _ e he]
  have htake : ∀ j, ∀ e ∈ (runStream start TaskProgress.initial msgs).2.take j,
      ¬ ((fun e => e.isComplete) e = true) := by
    intro j e he
    exact hinner e (List.mem_of_mem_take he)
  cases oc with
  | success =>
      refine ⟨?_, successResult, List.getLast?_concat _⟩
      simp only [executeEvents]
      rw [List.countP_append, List.countP_eq_zero.mpr hinner]
      rfl
  | streamError j m =>
      constructor
      · simp only [executeEvents]
        rw [List.countP_append, List.countP_eq_zero.mpr (htake j)]
        rfl
      · refine ⟨failureResult m, ?_⟩
        have hsplit : executeEvents start msgs (.streamError j m) =
            ((runStream start TaskProgress.initial msgs).2.take j ++ [.error m])
              ++ [.complete (failureResult m)] := by
          simp [executeEvents]
        rw [hsplit]
        exact List.getLast?_concat _
  | timedOut j =>
      constructor
      · simp only [executeEvents]
        rw [List.countP_append, List.countP_eq_zero.mpr (htake j)]
        rfl
      · refine ⟨failureResult "Timeout", ?_⟩
        have hsplit : executeEvents start msgs (.timedOut j) =
            ((runStream start TaskProgress.initial msgs).2.take j
                ++ [.error "Task execution timed out"])
              ++ [.complete (failureResult "Timeout")] := by
          simp [executeEvents]
        rw [hsplit]
        exact List.getLast?_concat _

/-- C7.  On the timeout path the last two events published are an ERROR whose
message says the task timed out, then a COMPLETE with exit_code 1 and
errors equal to the singleton Timeout. -/
theorem timeout_emits_error_then_complete :
    ∀ (start : Int) (msgs : List TimedMessage) (j : Nat),
      (executeEvents start msgs (.timedOut j)).getLast? =
        some (.complete (failureResult "Timeout")) ∧
      failureResult "Timeout" =
        { exit_code := 1, summary := "Task failed: Timeout", errors := ["Timeout"] } ∧
      (executeEvents start msgs (.timedOut j)).dropLast.getLast? =
        some (.error "Task execution timed out") ∧
      containsSubstr "Task execution timed out" "timed out" = true := by
  intro start msgs j
  have hsplit : executeEvents start msgs (.timedOut j) =
      ((runStream start TaskProgress.initial msgs).2.take j
          ++ [.error "Task execution timed out"])
        ++ [.complete (failureResult "Timeout")] := by
    simp [executeEvents]
  refine ⟨?_, by decide, ?_, by decide⟩
  · rw [hsplit]
    exact List.getLast?_concat _
  · rw [hsplit, List.dropLast_concat]
    exact List.getLast?_concat _

/-- C9.  When the stream is exhausted without ever yielding a Result message
(and without raising), the executor still publishes a COMPLETE with
exit_code 0, the success summary and an empty errors list as its last event. -/
theorem stream_exhausted_completes_success :
    ∀ (start : Int) (msgs : List TimedMessage),
      (∀ tm ∈ msgs, tm.msg.isResult = false) →
      (executeEvents start msgs .success).getLast? = some (.complete successResult) ∧
      successResult =
        { exit_code := 0, summary := "Task completed successfully", errors := [] } := by
  intro start msgs _h
  exact ⟨List.getLast?_concat _, rfl⟩

/-- C9, witness: a concrete Result-free stream of one user message ends in the
success COMPLETE. -/
theorem stream_exhausted_completes_success_witness :
    (executeEvents 0 [{ at_ms := 5, msg := .user "hi" }] .success).getLast? =
      some (.complete successResult) ∧
    successResult =
      { exit_code := 0, summary := "Task completed successfully", errors := [] } := by
  exact stream_exhausted_completes_success 0 [{ at_ms := 5, msg := .user "hi" }] (by decide)

/-- C8 counterexample.  The claim says the final PROGRESS event carries the
overwritten elapsed_time_ms = duration_ms; but _emit_progress recomputes
elapsed_time_ms from the wall clock before publishing, so at start 0, clock
7000 and duration_ms 50 the emitted PROGRESS carries 7000, not 50. -/
theorem final_progress_elapsed_counterexample :
    (handleResult 0 7000 TaskProgress.initial
        (some { total_tokens := 10, input_tokens := 6, output_tokens := 4 }) 1 50).2 =
      [.progress
        { turns := 1
          tokens_used := 10
          tokens_input := 6
          tokens_output := 4
          files_modified := 0
          elapsed_time_ms := 7000 }] ∧
    (7000 : Int) ≠ 50 := by
  decide

/-- C8 amended.  On the terminal Result message the executor overwrites the
token counters from the usage totals (when usage is truthy) and turns from
num_turns, and assigns duration_ms to elapsed_time_ms — but the final PROGRESS
emission recomputes elapsed_time_ms from the wall clock, so the emitted event
carries now − start_time in that field instead of duration_ms, together with
the overwritten token and turn values. -/
theorem final_progress_overwrites_amended :
    ∀ (start now : Int) (p : TaskProgress) (u : UsageTotals) (nt : Nat) (dms : Int),
      (handleResult start now p (some u) nt dms).2 =
        [.progress
          { turns := nt
            tokens_used := u.total_tokens
            tokens_input := u.input_tokens
            tokens_output := u.output_tokens
            files_modified := p.files_modified
            elapsed_time_ms := now - start }] ∧
      (handleResult start now p Option.none nt dms).2 =
        [.progress { p with turns := nt, elapsed_time_ms := now - start }] := by
  intro start now p u nt dms
  exact ⟨rfl, rfl⟩

/-- C10, witness: at a concrete registry, a raising interrupt yields the 500
path with the registry unchanged and a successful one records INTERRUPTED. -/
theorem interrupt_endpoint_witness :
    interrupt_task true ["s"] [("t", demoTaskEntry)] "t" =
      (.interruptFailed, [("t", demoTaskEntry)]) ∧
    interrupt_task false ["s"] [("t", demoTaskEntry)] "t" =
      (.interrupted, updateS [("t", demoTaskEntry)] "t"
        { demoTaskEntry with status := TaskStatus.interrupted }) := by
  exact ⟨(interrupt_endpoint_spec true ["s"] [("t", demoTaskEntry)] "t").1
            demoTaskEntry (by decide) (by decide) rfl,
         (interrupt_endpoint_spec false ["s"] [("t", demoTaskEntry)] "t").2.2.2
            demoTaskEntry (by decide) (by decide) rfl⟩

/-- C5 counterexample.  The claim makes turns non-decreasing across all
PROGRESS events of a task including the final one; but the final PROGRESS
overwrites turns with the num_turns of the Result message, which can be lower
than the running count: on the concrete stream of two assistant messages
followed by a Result with num_turns 1, the published turns sequence is
1, 2, 1 — not non-decreasing. -/
theorem progress_monotonicity_counterexample :
    progressTurns (executeEvents 0 c5msgs .success) = [1, 2, 1] ∧
    ¬ List.Pairwise (· ≤ ·) (progressTurns (executeEvents 0 c5msgs .success)) := by
  constructor
  · rfl
  · decide

/-- C5 amended.  elapsed_time_ms is non-decreasing across all PROGRESS events
of a task (including the final one) whenever the wall-clock readings taken
while processing the stream are non-decreasing, since every PROGRESS carries
now − start_time; turns is non-decreasing across the PROGRESS events whenever
no Result message is processed; the final PROGRESS emitted for a Result
message carries exactly its num_turns, which may be smaller than the
previously published turns. -/
theorem progress_monotonicity_amended :
    ∀ (start : Int) (msgs : List TimedMessage) (oc : Outcome),
      (List.Pairwise (· ≤ ·) (msgs.map TimedMessage.at_ms) →
        List.Pairwise (· ≤ ·) (progressElapsed (executeEvents start msgs oc))) ∧
      ((∀ tm ∈ msgs, tm.msg.isResult = false) →
        List.Pairwise (· ≤ ·) (progressTurns (executeEvents start msgs oc))) ∧
      (∀ (now : Int) (p : TaskProgress) (usage : Option UsageTotals) (nt : Nat) (dms : Int),
        progressTurns (handleResult start now p usage nt dms).2 = [nt]) := by
  intro start msgs oc
  refine ⟨?_, ?_, ?_⟩
  · intro htimes
    have hchain :
        List.Chain' (· ≤ ·) (progressElapsed (runStream start TaskProgress.initial msgs).2) := by
      cases msgs with
      | nil => simp [runStream, progressElapsed]
      | cons tm rest =>
          have hfull : List.Chain' (· ≤ ·)
              (tm.at_ms :: (tm :: rest).map TimedMessage.at_ms) := by
            simp only [List.map_cons]
            refine List.chain'_cons.mpr ⟨le_refl _, ?_⟩
            simpa using htimes.chain'
          exact (runStream_elapsed_chain start (tm :: rest) TaskProgress.initial
            tm.at_ms hfull).tail
    have hpw : List.Pairwise (· ≤ ·)
        (progressElapsed (runStream start TaskProgress.initial msgs).2) :=
      List.chain'_iff_pairwise.mp hchain
    cases oc with
    | success =>
        simp only [executeEvents]
        rw [progressElapsed_append]
        have htail : progressElapsed [Event.complete successResult] = [] := rfl
        rw [htail, List.append_nil]
        exact hpw
    | streamError j m =>
        simp only [executeEvents]
        rw [progressElapsed_append]
        have htail :
            progressElapsed [Event.error m, Event.complete (failureResult m)] = [] := rfl
        rw [htail, List.append_nil]
        exact hpw.sublist ((List.take_sublist j _).filterMap _)
    | timedOut j =>
        simp only [executeEvents]
        rw [progressElapsed_append]
        have htail :
            progressElapsed [Event.error "Task execution timed out",
              Event.complete (failureResult "Timeout")] = [] := rfl
        rw [htail, List.append_nil]
        exact hpw.sublist ((List.take_sublist j _).filterMap _)
  · intro hnores
    have hchain :
        List.Chain' (· ≤ ·) (progressTurns (runStream start TaskProgress.initial msgs).2) :=
      (runStream_turns_chain start msgs TaskProgress.initial hnores).tail
    have hpw : List.Pairwise (· ≤ ·)
        (progressTurns (runStream start TaskProgress.initial msgs).2) :=
      List.chain'_iff_pairwise.mp hchain
    cases oc with
    | success =>
        simp only [executeEvents]
        rw [progressTurns_append]
        have htail : progressTurns [Event.complete successResult] = [] := rfl
        rw [htail, List.append_nil]
        exact hpw
    | streamError j m =>
        simp only [executeEvents]
        rw [progressTurns_append]
        have htail :
            progressTurns [Event.error m, Event.complete (failureResult m)] = [] := rfl
        rw [htail, List.append_nil]
        exact hpw.sublist ((List.take_sublist j _).filterMap _)
    | timedOut j =>
        simp only [executeEvents]
        rw [progressTurns_append]
        have htail :
            progressTurns [Event.error "Task execution timed out",
              Event.complete (failureResult "Timeout")] = [] := rfl
        rw [htail, List.append_nil]
        exact hpw.sublist ((List.take_sublist j _).filterMap _)
  · intro now p usage nt dms
    cases usage <;> rfl

/-- C5 amended, witness: the elapsed sequence of the concrete stream is
non-decreasing, the turns sequence of a Result-free stream is non-decreasing,
and the final PROGRESS of a concrete Result carries its num_turns. -/
theorem progress_monotonicity_amended_witness :
    List.Pairwise (· ≤ ·) (progressElapsed (executeEvents 0 c5msgs .success)) ∧
    List.Pairwise (· ≤ ·)
      (progressTurns (executeEvents 0 [{ at_ms := 5, msg := .user "hi" }] .success)) ∧
    progressTurns (handleResult 0 7000 TaskProgress.initial Option.none 3 50).2 = [3] := by
  refine ⟨(progress_monotonicity_amended 0 c5msgs .success).1 (by decide),
          (progress_monotonicity_amended 0 [{ at_ms := 5, msg := .user "hi" }] .success).2.1
            (by decide),
          (progress_monotonicity_amended 0 [] .success).2.2 7000 TaskProgress.initial
            Option.none 3 50⟩

end CCServer
